import Mathlib

/-!
Verification of the UPSC test-generator application: a shallow embedding of
the attempt engine, scoring pipeline, backup restore, streak analytics,
countdown timer and backend API routes, with theorems checking the
natural-language specification against the code.

Numbers that the TypeScript source handles as JS numbers are modelled as
rationals (ℚ); timestamps are rationals (milliseconds); JS arrays become
Lean lists with out-of-range reads made explicit through Option.
-/

namespace UpscApp

/-! ## Data model (interfaces Question, Test, TestAttempt in index.tsx) -/

structure Question where
  question : String
  options : List String
  answer : ℕ
  subject : String
  topic : String
  deriving Repr, DecidableEq

structure Test where
  id : String
  name : String
  questions : List Question
  duration : ℚ
  marksPerQuestion : ℚ
  negativeMarking : ℚ
  deriving Repr, DecidableEq

inductive QuestionStatus where
  | notVisited
  | notAnswered
  | answered
  | marked
  | markedAndAnswered
  deriving Repr, DecidableEq

/-- The mutable session state of the attempt engine: the globals
`currentTest`, `currentQuestionIndex`, `userAnswers`, `questionStatuses`,
`timePerQuestion`, `questionStartTime` of index.tsx, plus `selected`, the
checked radio button of the currently rendered question (the DOM state that
`saveCurrentAnswer` reads back). -/
structure AttemptState where
  currentTest : Test
  currentQuestionIndex : ℕ
  userAnswers : List (Option ℕ)
  questionStatuses : List QuestionStatus
  timePerQuestion : List ℚ
  questionStartTime : ℚ
  selected : Option ℕ
  deriving Repr, DecidableEq

structure TestAttempt where
  userAnswers : List (Option ℕ)
  timePerQuestion : List ℚ
  score : ℚ
  totalQuestions : ℕ
  correctAnswers : ℕ
  incorrectAnswers : ℕ
  unanswered : ℕ
  deriving Repr, DecidableEq

/-! ## Attempt engine (index.tsx) -/

/-- `startTest` of index.tsx: fresh per-question arrays, index 0 marked
`notAnswered`, stopwatch started now, nothing selected in the DOM. -/
def startTest (test : Test) (now : ℚ) : AttemptState :=
  { currentTest := test
    currentQuestionIndex := 0
    userAnswers := List.replicate test.questions.length none
    questionStatuses :=
      (List.replicate test.questions.length QuestionStatus.notVisited).set 0
        QuestionStatus.notAnswered
    timePerQuestion := List.replicate test.questions.length 0
    questionStartTime := now
    selected := none }

/-- The marked statuses, which `saveCurrentAnswer` preserves. -/
def isMarkedStatus (st : QuestionStatus) : Prop :=
  st = QuestionStatus.marked ∨ st = QuestionStatus.markedAndAnswered

instance (st : QuestionStatus) : Decidable (isMarkedStatus st) := by
  unfold isMarkedStatus; infer_instance

/-- `saveCurrentAnswer` of index.tsx: commit the checked radio (or null)
into the current question's answer slot, then recompute its status. -/
def saveCurrentAnswer (s : AttemptState) : AttemptState :=
  let i := s.currentQuestionIndex
  let answers := s.userAnswers.set i s.selected
  let currentStatus := s.questionStatuses.getD i QuestionStatus.notVisited
  let statuses :=
    match s.selected with
    | some _ =>
        s.questionStatuses.set i
          (if isMarkedStatus currentStatus then QuestionStatus.markedAndAnswered
           else QuestionStatus.answered)
    | none =>
        if isMarkedStatus currentStatus then s.questionStatuses
        else s.questionStatuses.set i QuestionStatus.notAnswered
  { s with userAnswers := answers, questionStatuses := statuses }

/-- The status recomputation rule of `saveCurrentAnswer`, stated on its
own: with an option selected the question becomes answered (markedAndAnswered
when it carried a mark); with none selected it becomes notAnswered unless
it carried a mark, which is kept unchanged. -/
def statusRecompute (selected : Option ℕ) (cur : QuestionStatus) : QuestionStatus :=
  match selected with
  | some _ =>
      if isMarkedStatus cur then QuestionStatus.markedAndAnswered else QuestionStatus.answered
  | none => if isMarkedStatus cur then cur else QuestionStatus.notAnswered

/-- `navigateToQuestion(newIndex)` of index.tsx, `now` being `Date.now()`:
add the elapsed time to the outgoing question's bucket, commit the answer,
then move only when `newIndex` is in bounds.  In the index.tsx variant the
two early-return branches leave `questionStartTime` untouched.  On a
successful move `renderQuestionForAttempt` re-renders the radio group with
the stored answer of the incoming question checked. -/
def navigateToQuestion (s : AttemptState) (now : ℚ) (newIndex : ℤ) : AttemptState :=
  let timeSpent := (now - s.questionStartTime) / 1000
  let bumped := s.timePerQuestion.set s.currentQuestionIndex
      (s.timePerQuestion.getD s.currentQuestionIndex 0 + timeSpent)
  let s1 := { s with timePerQuestion := bumped }
  let s2 := saveCurrentAnswer s1
  if (s2.currentTest.questions.length : ℤ) ≤ newIndex then s2
  else if newIndex < 0 then s2
  else
    let i := newIndex.toNat
    let s3 := { s2 with currentQuestionIndex := i, questionStartTime := now }
    let s4 :=
      if s3.questionStatuses.getD i QuestionStatus.notVisited = QuestionStatus.notVisited
      then { s3 with questionStatuses := s3.questionStatuses.set i QuestionStatus.notAnswered }
      else s3
    { s4 with selected := s4.userAnswers.getD i none }

/-- The click on a radio button (or the 1..4 keyboard shortcut): only a
rendered option can be checked, so the index is guarded by the option count
of the question on screen. -/
def selectOption (s : AttemptState) (opt : ℕ) : AttemptState :=
  if opt < ((s.currentTest.questions.getD s.currentQuestionIndex
      ⟨"", [], 0, "", ""⟩).options).length
  then { s with selected := some opt }
  else s

/-- The clear-response button of index.tsx: it only unchecks the radio
group, no state array changes. -/
def clearResponse (s : AttemptState) : AttemptState :=
  { s with selected := none }

/-- The mark-for-review click listener of index.tsx: flip the current
status to marked / markedAndAnswered, then navigate to the next index. -/
def markReview (s : AttemptState) (now : ℚ) : AttemptState :=
  let currentStatus := s.questionStatuses.getD s.currentQuestionIndex
      QuestionStatus.notVisited
  let newStatus :=
    if currentStatus = QuestionStatus.answered ∨
       currentStatus = QuestionStatus.markedAndAnswered
    then QuestionStatus.markedAndAnswered else QuestionStatus.marked
  let s1 := { s with questionStatuses :=
      s.questionStatuses.set s.currentQuestionIndex newStatus }
  navigateToQuestion s1 now ((s.currentQuestionIndex : ℤ) + 1)

/-- One user interaction during an attempt, tagged with the wall-clock
time at which it happens. -/
inductive Action where
  | select (opt : ℕ)
  | clear
  | mark
  | navigate (j : ℤ)
  deriving Repr, DecidableEq

def step (s : AttemptState) (a : Action × ℚ) : AttemptState :=
  match a.1 with
  | Action.select opt => selectOption s opt
  | Action.clear => clearResponse s
  | Action.mark => markReview s a.2
  | Action.navigate j => navigateToQuestion s a.2 j

def runActions (s : AttemptState) (acts : List (Action × ℚ)) : AttemptState :=
  acts.foldl step s

/-! ## Submission and scoring (handleSubmitTest of index.tsx) -/

structure SubmissionCounts where
  correctAnswers : ℕ
  incorrectAnswers : ℕ
  unanswered : ℕ
  deriving Repr, DecidableEq

/-- The counting loop of `handleSubmitTest`: iterate the questions by
index and read `userAnswers[index]`; a JS out-of-range read yields
`undefined`, which is neither `null` nor equal to the numeric stored
answer, hence falls in the incorrect branch. -/
def countAnswers : List Question → List (Option ℕ) → SubmissionCounts
  | [], _ => ⟨0, 0, 0⟩
  | q :: qs, answers =>
      let rest := countAnswers qs answers.tail
      match answers.head? with
      | none => { rest with incorrectAnswers := rest.incorrectAnswers + 1 }
      | some none => { rest with unanswered := rest.unanswered + 1 }
      | some (some a) =>
          if a = q.answer
          then { rest with correctAnswers := rest.correctAnswers + 1 }
          else { rest with incorrectAnswers := rest.incorrectAnswers + 1 }

/-- The JS `x || d` idiom on numbers: 0 (and a missing field) is falsy and
is replaced by the default. -/
def jsOrNum (x d : ℚ) : ℚ := if x = 0 then d else x

/-- The score lines of `handleSubmitTest` in index.tsx:
`marksPerQ = marksPerQuestion || 2`, `negMark = negativeMarking || 0.66`,
raw score clamped at 0, percentage guarded when the maximum is 0. -/
def scorePercentage (test : Test) (c : SubmissionCounts) : ℚ :=
  let marksPerQ := jsOrNum test.marksPerQuestion 2
  let negMark := jsOrNum test.negativeMarking (66 / 100)
  let rawScore := (c.correctAnswers : ℚ) * marksPerQ - (c.incorrectAnswers : ℚ) * negMark
  let totalMaxScore := (test.questions.length : ℚ) * marksPerQ
  if 0 < totalMaxScore then max 0 (rawScore / totalMaxScore * 100) else 0

/-- `handleSubmitTest` of index.tsx: final time/answer commit, counting,
score, and the recorded `TestAttempt`. -/
def handleSubmitTest (s : AttemptState) (now : ℚ) : TestAttempt :=
  let timeSpent := (now - s.questionStartTime) / 1000
  let bumped := s.timePerQuestion.set s.currentQuestionIndex
      (s.timePerQuestion.getD s.currentQuestionIndex 0 + timeSpent)
  let s1 := { s with timePerQuestion := bumped }
  let s2 := saveCurrentAnswer s1
  let c := countAnswers s2.currentTest.questions s2.userAnswers
  { userAnswers := s2.userAnswers
    timePerQuestion := s2.timePerQuestion
    score := scorePercentage s2.currentTest c
    totalQuestions := s2.currentTest.questions.length
    correctAnswers := c.correctAnswers
    incorrectAnswers := c.incorrectAnswers
    unanswered := c.unanswered }

/-- The score lines of `handleSubmitTest` in the part_000 variant:
`marksPerQ = marksPerQuestion || 1`, `negMark = negativeMarking || 0`
(so a stored 0 negative marking stays 0 there), raw score clamped at 0,
percentage guarded when the maximum is 0. -/
def scorePercentagePart000 (test : Test) (c : SubmissionCounts) : ℚ :=
  let marksPerQ := jsOrNum test.marksPerQuestion 1
  let negMark := jsOrNum test.negativeMarking 0
  let rawScore := (c.correctAnswers : ℚ) * marksPerQ - (c.incorrectAnswers : ℚ) * negMark
  let totalMaxScore := (test.questions.length : ℚ) * marksPerQ
  if 0 < totalMaxScore then max 0 (rawScore / totalMaxScore * 100) else 0

/-- `handleSubmitTest` of the part_000 variant: the same final
time/answer commit and counting loop as index.tsx, with that variant's
score defaults. -/
def handleSubmitTestPart000 (s : AttemptState) (now : ℚ) : TestAttempt :=
  let timeSpent := (now - s.questionStartTime) / 1000
  let bumped := s.timePerQuestion.set s.currentQuestionIndex
      (s.timePerQuestion.getD s.currentQuestionIndex 0 + timeSpent)
  let s1 := { s with timePerQuestion := bumped }
  let s2 := saveCurrentAnswer s1
  let c := countAnswers s2.currentTest.questions s2.userAnswers
  { userAnswers := s2.userAnswers
    timePerQuestion := s2.timePerQuestion
    score := scorePercentagePart000 s2.currentTest c
    totalQuestions := s2.currentTest.questions.length
    correctAnswers := c.correctAnswers
    incorrectAnswers := c.incorrectAnswers
    unanswered := c.unanswered }

/-- The accuracy computation of `renderPerformanceReport`: guarded so an
attempt with nothing attempted reports 0 rather than dividing by zero. -/
def reportAccuracy (correctAnswers incorrectAnswers : ℕ) : ℚ :=
  let attemptedCount := correctAnswers + incorrectAnswers
  if 0 < attemptedCount
  then (correctAnswers : ℚ) / (attemptedCount : ℚ) * 100
  else 0

/-! ## Backup restore (the restoreFileInput change listener of index.tsx) -/

/-- JS `Map.set`: replace the value in place when the key exists, append
the entry otherwise. -/
def jsMapSet (m : List (String × Test)) (k : String) (v : Test) : List (String × Test) :=
  if m.any (fun p => p.1 = k) then m.map (fun p => if p.1 = k then (k, v) else p)
  else m ++ [(k, v)]

/-- JS `new Map(entries)`: fold the entries with `Map.set` starting from
the empty map; iteration order of the result is key-insertion order. -/
def jsMapFromEntries (entries : List (String × Test)) : List (String × Test) :=
  entries.foldl (fun m e => jsMapSet m e.1 e.2) []

/-- `Array.from(new Map(newTests.map(item => [item.id, item])).values())`
of the restore listener. -/
def uniqueTestsOf (newTests : List Test) : List Test :=
  (jsMapFromEntries (newTests.map (fun t => (t.id, t)))).map (fun p => p.2)

/-- The restore listener's merge: the backup's tests (when that field is
an array) are prepended to the locally stored tests, and the combined list
is de-duplicated by id. -/
def restoreMergeTests (backupTests : Option (List Test)) (currentTests : List Test) :
    List Test :=
  let newTests :=
    match backupTests with
    | some ts => ts ++ currentTests
    | none => currentTests
  uniqueTestsOf newTests

/-! ## Streak (calculateStreak of index.tsx)

Attempt completion timestamps are abstracted to local calendar-day
numbers (the value `new Date(h.completedAt).toDateString()` buckets into),
so that a gap of one calendar day is a difference of 1. -/

/-- JS `[...new Set(dates)]`: de-duplication keeping first occurrences. -/
def jsSetDedup (l : List ℤ) : List ℤ :=
  l.foldl (fun acc d => if d ∈ acc then acc else acc ++ [d]) []

/-- The counting loop of `calculateStreak`: walk the descending unique
dates, counting while successive entries differ by exactly one day. -/
def streakWalk : ℤ → List ℤ → ℕ
  | _, [] => 0
  | prev, curr :: rest => if prev - curr = 1 then 1 + streakWalk curr rest else 0

/-- `calculateStreak(history)` of index.tsx: de-duplicate the attempt
days, sort them most-recent-first, and if the most recent is today or
yesterday count the run of consecutive days. -/
def calculateStreak (history : List ℤ) (today : ℤ) : ℕ :=
  if history.isEmpty then 0
  else
    let uniqueDates := (jsSetDedup history).mergeSort (fun a b => decide (b ≤ a))
    match uniqueDates with
    | [] => 0
    | d0 :: rest =>
        if d0 = today ∨ d0 = today - 1 then 1 + streakWalk d0 rest else 0

/-- Counts how many consecutive calendar days ending at `d` (walking
backwards) have at least one attempt in `dates`; `fuel` bounds the
recursion and is chosen at least as large as the longest possible run. -/
def consecutiveRun (dates : List ℤ) (d : ℤ) : ℕ → ℕ
  | 0 => 0
  | fuel + 1 => if d ∈ dates then 1 + consecutiveRun dates (d - 1) fuel else 0

/-- The streak as the specification words it: the number of consecutive
calendar days with at least one attempt in the unbroken run ending at the
most recent attempt day, provided that day is today or yesterday; 0 when
the most recent attempt day is neither. -/
def specStreak (history : List ℤ) (today : ℤ) : ℕ :=
  match history.max? with
  | none => 0
  | some d0 =>
      if d0 = today ∨ d0 = today - 1 then consecutiveRun history d0 history.length
      else 0

/-! ## Countdown timer (startTimer / stopTimer of index.tsx)

`setInterval` handles are modelled as increasing ids; `liveIntervals`
is the set of intervals the browser would still fire; `timerInterval` is
the module-level handle variable of index.tsx. -/

structure TimerState where
  timerInterval : Option ℕ
  liveIntervals : List ℕ
  nextId : ℕ
  timeRemaining : ℤ
  submissions : ℕ
  notifications : ℕ
  deriving Repr, DecidableEq

/-- `window.clearInterval(id)`. -/
def clearIntervalJs (s : TimerState) (id : ℕ) : TimerState :=
  { s with liveIntervals := s.liveIntervals.filter (fun x => x ≠ id) }

/-- `startTimer` of index.tsx: `if (timerInterval) clearInterval(...)`,
then register a fresh interval and store its handle. -/
def startTimer (s : TimerState) : TimerState :=
  let s1 :=
    match s.timerInterval with
    | some id => clearIntervalJs s id
    | none => s
  { s1 with
    timerInterval := some s1.nextId
    liveIntervals := s1.liveIntervals ++ [s1.nextId]
    nextId := s1.nextId + 1 }

/-- `stopTimer` of index.tsx. -/
def stopTimer (s : TimerState) : TimerState :=
  let s1 :=
    match s.timerInterval with
    | some id => clearIntervalJs s id
    | none => s
  { s1 with timerInterval := none }

/-- The effect of `handleSubmitTest` on the timer state: it stops the
timer first and records exactly one submission. -/
def submitEffect (s : TimerState) : TimerState :=
  let s1 := stopTimer s
  { s1 with submissions := s1.submissions + 1 }

/-- The abandon-test confirmation handler: stop the timer, record no
submission. -/
def abandonTest (s : TimerState) : TimerState := stopTimer s

/-- One firing of the `setInterval` callback registered by `startTimer`:
the browser only fires a callback whose interval is still live. The
callback decrements `timeRemaining` and, on reaching zero, stops the
countdown, notifies the user and force-submits. -/
def timerTick (s : TimerState) (id : ℕ) : TimerState :=
  if id ∈ s.liveIntervals then
    let s1 := { s with timeRemaining := s.timeRemaining - 1 }
    if s1.timeRemaining ≤ 0 then
      let s2 := stopTimer s1
      let s3 := { s2 with notifications := s2.notifications + 1 }
      submitEffect s3
    else s1
  else s

/-- The single-timer invariant of the session: the live intervals are
exactly the one registered in `timerInterval` (if any), and every live id
was allocated before `nextId`. -/
def timerWf (s : TimerState) : Prop :=
  s.liveIntervals = s.timerInterval.toList ∧ ∀ id ∈ s.liveIntervals, id < s.nextId

instance (s : TimerState) : Decidable (timerWf s) := by
  unfold timerWf; infer_instance

/-! ## Backend API (the Express server variant)

JWT verification is abstracted as a function from token strings to the
user id a valid token carries (`none` when `jwt.verify` rejects). -/

structure BackendTest where
  id : String
  userId : String
  name : String
  deriving Repr, DecidableEq

structure BackendAttempt where
  id : String
  userId : String
  testId : String
  score : ℚ
  deriving Repr, DecidableEq

structure Db where
  tests : List BackendTest
  attempts : List BackendAttempt
  deriving Repr, DecidableEq

/-- JS `String.prototype.split` with a single-character separator, on the
character list: splitting an empty string yields one empty group, and
every separator occurrence starts a new group. -/
def splitCharList (sep : Char) : List Char → List (List Char)
  | [] => [[]]
  | c :: rest =>
      let r := splitCharList sep rest
      if c = sep then [] :: r
      else
        match r with
        | [] => [[c]]
        | g :: gs => (c :: g) :: gs

/-- JS `s.split(sep)` for a one-character separator. -/
def jsSplit (s : String) (sep : Char) : List String :=
  (splitCharList sep s.data).map List.asString

/-- The token extraction of `authenticateToken`:
`authHeader && authHeader.split(' ')[1]`, the empty string being falsy. -/
def extractToken (authHeader : Option String) : Option String :=
  match authHeader with
  | none => none
  | some h =>
      match (jsSplit h ' ').get? 1 with
      | none => none
      | some t => if t = "" then none else some t

inductive AuthOutcome where
  | denied (code : ℕ)
  | ok (userId : String)
  deriving Repr, DecidableEq

/-- `authenticateToken` middleware: 401 without a token, 403 when
verification fails, otherwise the handler runs as the token's user. -/
def authenticateToken (verify : String → Option String) (authHeader : Option String) :
    AuthOutcome :=
  match extractToken authHeader with
  | none => AuthOutcome.denied 401
  | some t =>
      match verify t with
      | none => AuthOutcome.denied 403
      | some u => AuthOutcome.ok u

/-- The token-protected routes of server.js: every route except
register and login is wrapped in `authenticateToken`. -/
inductive ApiRequest where
  | getTests
  | postTest (t : BackendTest)
  | deleteTest (id : String)
  | getAttempts
  | postAttempt (a : BackendAttempt)
  | getSync
  | postSync (tests : Option (List BackendTest)) (attempts : Option (List BackendAttempt))
  | verifyAuth
  deriving Repr, DecidableEq

inductive ApiResponse where
  | error (code : ℕ)
  | testList (ts : List BackendTest)
  | attemptList (atts : List BackendAttempt)
  | syncData (ts : List BackendTest) (atts : List BackendAttempt)
  | saved
  | user (id : String)
  deriving Repr, DecidableEq

/-- GET /api/tests: the stored tests filtered to the authenticated user. -/
def getTestsHandler (u : String) (db : Db) : ApiResponse × Db :=
  (ApiResponse.testList (db.tests.filter (fun t => t.userId = u)), db)

/-- POST /api/tests: stamp the user id, replace the user's test with the
same id when present, append otherwise. -/
def postTestHandler (u : String) (t : BackendTest) (db : Db) : ApiResponse × Db :=
  let stamped := { t with userId := u }
  let tests :=
    match db.tests.findIdx? (fun x => x.id = stamped.id ∧ x.userId = u) with
    | some i => db.tests.set i stamped
    | none => db.tests ++ [stamped]
  (ApiResponse.saved, { db with tests := tests })

/-- DELETE /api/tests/:id: remove the user's test with that id. -/
def deleteTestHandler (u : String) (rid : String) (db : Db) : ApiResponse × Db :=
  (ApiResponse.saved,
   { db with tests := db.tests.filter (fun t => ¬(t.id = rid ∧ t.userId = u)) })

/-- GET /api/attempts: the stored attempts filtered to the user. -/
def getAttemptsHandler (u : String) (db : Db) : ApiResponse × Db :=
  (ApiResponse.attemptList (db.attempts.filter (fun a => a.userId = u)), db)

/-- POST /api/attempts: stamp the user id and a fresh record id, append. -/
def postAttemptHandler (u : String) (freshId : String) (a : BackendAttempt) (db : Db) :
    ApiResponse × Db :=
  let stamped := { a with userId := u, id := freshId }
  (ApiResponse.saved, { db with attempts := db.attempts ++ [stamped] })

/-- GET /api/sync: both collections filtered to the user. -/
def getSyncHandler (u : String) (db : Db) : ApiResponse × Db :=
  (ApiResponse.syncData (db.tests.filter (fun t => t.userId = u))
    (db.attempts.filter (fun a => a.userId = u)), db)

/-- POST /api/sync: drop the user's stored tests and attempts, then append
the request body's arrays with the user id stamped on each record; a
missing or non-array field contributes nothing. -/
def postSyncHandler (u : String) (tests : Option (List BackendTest))
    (attempts : Option (List BackendAttempt)) (db : Db) : ApiResponse × Db :=
  let keptTests := db.tests.filter (fun t => ¬ t.userId = u)
  let keptAttempts := db.attempts.filter (fun a => ¬ a.userId = u)
  let newTests :=
    match tests with
    | some ts => keptTests ++ ts.map (fun t => { t with userId := u })
    | none => keptTests
  let newAttempts :=
    match attempts with
    | some atts => keptAttempts ++ atts.map (fun a => { a with userId := u })
    | none => keptAttempts
  (ApiResponse.saved, { db with tests := newTests, attempts := newAttempts })

/-- The route table: every data route is wrapped in `authenticateToken`,
exactly as in server.js. -/
def handleRequest (verify : String → Option String) (authHeader : Option String)
    (freshId : String) (r : ApiRequest) (db : Db) : ApiResponse × Db :=
  match authenticateToken verify authHeader with
  | AuthOutcome.denied c => (ApiResponse.error c, db)
  | AuthOutcome.ok u =>
      match r with
      | ApiRequest.getTests => getTestsHandler u db
      | ApiRequest.postTest t => postTestHandler u t db
      | ApiRequest.deleteTest rid => deleteTestHandler u rid db
      | ApiRequest.getAttempts => getAttemptsHandler u db
      | ApiRequest.postAttempt a => postAttemptHandler u freshId a db
      | ApiRequest.getSync => getSyncHandler u db
      | ApiRequest.postSync ts atts => postSyncHandler u ts atts db
      | ApiRequest.verifyAuth => (ApiResponse.user u, db)

/-! ## Concrete fixtures used by witnesses and counterexamples -/

def exQ0 : Question := ⟨"2+2?", ["4", "5", "6", "7"], 0, "Maths", "Arithmetic"⟩

def exQ1 : Question := ⟨"Capital?", ["Mumbai", "Delhi", "Chennai", "Pune"], 1, "Polity", "Basics"⟩

/-- The specification's worked example: 2 questions, marksPerQuestion 2,
negativeMarking 0.66. -/
def exampleTest : Test := ⟨"t1", "Example", [exQ0, exQ1], 10, 2, 66 / 100⟩

/-- The same test with negativeMarking stored as 0, which the JS `||`
default replaces by 0.66 at submission. -/
def zeroNegTest : Test := ⟨"t1", "Example", [exQ0, exQ1], 10, 2, 0⟩

/-- Answer question 1 correctly (option 0), move on, answer question 2
incorrectly (option 2); submission then commits the second answer. -/
def exampleActs : List (Action × ℚ) :=
  [(Action.select 0, 1000), (Action.navigate 1, 2000), (Action.select 2, 3000)]

/-- A backup copy and a local copy of the same test id, used to exhibit
which copy the restore merge keeps. -/
def backupCopy : Test := ⟨"t1", "Backup", [], 10, 2, 0⟩

def localCopy : Test := ⟨"t1", "Local", [], 10, 2, 0⟩

/-! ## Helper lemmas -/

theorem getD_set_eq_ite {α : Type} (l : List α) (i k : ℕ) (v d : α) :
    (l.set i v).getD k d = if i = k ∧ i < l.length then v else l.getD k d := by
  rw [List.getD_eq_getElem?_getD, List.getD_eq_getElem?_getD, List.getElem?_set]
  by_cases h1 : i = k
  · subst h1
    by_cases h2 : i < l.length
    · simp [h2]
    · simp only [h2, if_false, and_false, if_neg, not_false_iff, Option.getD_none]
      rw [List.getElem?_eq_none (by omega)]
      rfl
  · simp [h1]

theorem countAnswers_sum (qs : List Question) (answers : List (Option ℕ)) :
    (countAnswers qs answers).correctAnswers + (countAnswers qs answers).incorrectAnswers +
      (countAnswers qs answers).unanswered = qs.length := by
  induction qs generalizing answers with
  | nil => simp [countAnswers]
  | cons q qs ih =>
      have h := ih answers.tail
      cases hh : answers.head? with
      | none => simp only [countAnswers, hh, List.length_cons]; omega
      | some o =>
          cases o with
          | none => simp only [countAnswers, hh, List.length_cons]; omega
          | some a =>
              simp only [countAnswers, hh, List.length_cons]
              split <;> simp only [] <;> omega

theorem selectOption_currentTest (s : AttemptState) (opt : ℕ) :
    (selectOption s opt).currentTest = s.currentTest := by
  unfold selectOption; split <;> rfl

theorem saveCurrentAnswer_currentTest (s : AttemptState) :
    (saveCurrentAnswer s).currentTest = s.currentTest := rfl

theorem navigateToQuestion_currentTest (s : AttemptState) (now : ℚ) (j : ℤ) :
    (navigateToQuestion s now j).currentTest = s.currentTest := by
  unfold navigateToQuestion
  dsimp only
  split
  · rfl
  · split
    · rfl
    · split <;> rfl

theorem markReview_currentTest (s : AttemptState) (now : ℚ) :
    (markReview s now).currentTest = s.currentTest := by
  unfold markReview
  dsimp only
  rw [navigateToQuestion_currentTest]

theorem step_currentTest (s : AttemptState) (a : Action × ℚ) :
    (step s a).currentTest = s.currentTest := by
  rcases a with ⟨act, t⟩
  cases act with
  | select opt => exact selectOption_currentTest s opt
  | clear => rfl
  | mark => exact markReview_currentTest s t
  | navigate j => exact navigateToQuestion_currentTest s t j

theorem runActions_currentTest (acts : List (Action × ℚ)) (s : AttemptState) :
    (runActions s acts).currentTest = s.currentTest := by
  induction acts generalizing s with
  | nil => rfl
  | cons a rest ih =>
      show (runActions (step s a) rest).currentTest = _
      rw [ih, step_currentTest]

theorem countAnswers_all_none (qs : List Question) (answers : List (Option ℕ))
    (hlen : qs.length ≤ answers.length) (hnone : ∀ x ∈ answers, x = none) :
    countAnswers qs answers = ⟨0, 0, qs.length⟩ := by
  induction qs generalizing answers with
  | nil => simp [countAnswers]
  | cons q qs ih =>
      cases answers with
      | nil => simp at hlen
      | cons a rest =>
          have ha : a = none := hnone a (by simp)
          subst ha
          have hr := ih rest (by simpa using hlen)
            (fun x hx => hnone x (List.mem_cons_of_mem _ hx))
          simp only [countAnswers, List.head?_cons, List.tail_cons, hr, List.length_cons]

theorem handleSubmitTest_score (s : AttemptState) (now : ℚ) :
    (handleSubmitTest s now).score =
      scorePercentage s.currentTest
        (countAnswers s.currentTest.questions (handleSubmitTest s now).userAnswers) := rfl

theorem scorePercentage_no_attempt (test : Test) (u : ℕ) :
    scorePercentage test ⟨0, 0, u⟩ = 0 := by
  unfold scorePercentage
  dsimp only
  split <;> simp

/-! ## C2: the submission counts partition the questions -/

/-- C2: for every test with N questions and every sequence of
navigate/answer/clear/mark actions during an attempt, the counts computed
at submission satisfy correct + incorrect + unanswered = N — each question
index falls into exactly one of the three categories. -/
theorem c2_counts_partition (test : Test) (t0 now : ℚ) (acts : List (Action × ℚ)) :
    (handleSubmitTest (runActions (startTest test t0) acts) now).correctAnswers +
      (handleSubmitTest (runActions (startTest test t0) acts) now).incorrectAnswers +
      (handleSubmitTest (runActions (startTest test t0) acts) now).unanswered =
      test.questions.length := by
  have hct : (runActions (startTest test t0) acts).currentTest = test :=
    runActions_currentTest acts (startTest test t0)
  simp only [handleSubmitTest]
  rw [countAnswers_sum]
  simp [saveCurrentAnswer, hct]

/-! ## C7: accuracy is guarded against division by zero -/

theorem handleSubmitTest_userAnswers (s : AttemptState) (now : ℚ) :
    (handleSubmitTest s now).userAnswers =
      s.userAnswers.set s.currentQuestionIndex s.selected := rfl

/-- C7: the per-attempt report's accuracy is
correct/(correct+incorrect) as a percentage, guarded so that when nothing
was attempted the accuracy is 0 rather than a division by zero; an
attempt with every question unanswered reports accuracy 0 and score 0. -/
theorem c7_accuracy_guard (s : AttemptState) (now : ℚ) (c i : ℕ)
    (hnone : ∀ x ∈ s.userAnswers, x = none) (hsel : s.selected = none)
    (hlen : s.currentTest.questions.length ≤ s.userAnswers.length) :
    ((handleSubmitTest s now).correctAnswers = 0 ∧
      (handleSubmitTest s now).incorrectAnswers = 0 ∧
      (handleSubmitTest s now).score = 0 ∧
      reportAccuracy (handleSubmitTest s now).correctAnswers
        (handleSubmitTest s now).incorrectAnswers = 0) ∧
    (c + i = 0 → reportAccuracy c i = 0) ∧
    (0 < c + i → reportAccuracy c i = (c : ℚ) / ((c : ℚ) + (i : ℚ)) * 100) := by
  have hans : (handleSubmitTest s now).userAnswers =
      s.userAnswers.set s.currentQuestionIndex s.selected := rfl
  have hnone2 : ∀ x ∈ (handleSubmitTest s now).userAnswers, x = none := by
    rw [hans, hsel]
    intro x hx
    rcases List.mem_or_eq_of_mem_set hx with h | h
    · exact hnone x h
    · exact h
  have hlen2 : s.currentTest.questions.length ≤ (handleSubmitTest s now).userAnswers.length := by
    rw [hans, List.length_set]; exact hlen
  have hcount : countAnswers s.currentTest.questions (handleSubmitTest s now).userAnswers =
      ⟨0, 0, s.currentTest.questions.length⟩ := countAnswers_all_none _ _ hlen2 hnone2
  have hc : (handleSubmitTest s now).correctAnswers = 0 := by
    show (countAnswers s.currentTest.questions
      (handleSubmitTest s now).userAnswers).correctAnswers = 0
    rw [hcount]
  have hic : (handleSubmitTest s now).incorrectAnswers = 0 := by
    show (countAnswers s.currentTest.questions
      (handleSubmitTest s now).userAnswers).incorrectAnswers = 0
    rw [hcount]
  have hscore : (handleSubmitTest s now).score = 0 := by
    rw [handleSubmitTest_score, hcount, scorePercentage_no_attempt]
  refine ⟨⟨hc, hic, hscore, ?_⟩, ?_, ?_⟩
  · rw [hc, hic]; simp [reportAccuracy]
  · intro h
    have hc0 : c = 0 := by omega
    have hi0 : i = 0 := by omega
    subst hc0; subst hi0
    simp [reportAccuracy]
  · intro h
    unfold reportAccuracy
    dsimp only
    rw [if_pos h]
    push_cast
    ring

/-- Witness for C7 at a concrete submission in which nothing was ever
answered. -/
theorem c7_accuracy_guard_witness :
    (handleSubmitTest (startTest exampleTest 0) 0).score = 0 ∧
    reportAccuracy (handleSubmitTest (startTest exampleTest 0) 0).correctAnswers
      (handleSubmitTest (startTest exampleTest 0) 0).incorrectAnswers = 0 := by
  have h := c7_accuracy_guard (startTest exampleTest 0) 0 0 0 (by decide) rfl (by decide)
  exact ⟨h.1.2.2.1, h.1.2.2.2⟩

/-! ## C1: the recorded score -/

theorem startTest_currentTest (test : Test) (now : ℚ) :
    (startTest test now).currentTest = test := rfl

theorem concrete_example_score :
    (handleSubmitTest (runActions (startTest exampleTest 0) exampleActs) 4000).score = 67 / 2 := by
  have hct2 : (runActions (startTest exampleTest 0) exampleActs).currentTest = exampleTest :=
    (runActions_currentTest _ _).trans (startTest_currentTest _ _)
  have hU : (handleSubmitTest (runActions (startTest exampleTest 0) exampleActs) 4000).userAnswers
      = [some 0, some 2] := by decide
  rw [handleSubmitTest_score, hct2, hU]
  have hcnt : countAnswers exampleTest.questions [some 0, some 2] = ⟨1, 1, 0⟩ := by decide
  rw [hcnt]
  unfold scorePercentage jsOrNum exampleTest
  norm_num

theorem concrete_zeroNeg_score :
    (handleSubmitTest (runActions (startTest zeroNegTest 0) exampleActs) 4000).score = 67 / 2 := by
  have hct2 : (runActions (startTest zeroNegTest 0) exampleActs).currentTest = zeroNegTest :=
    (runActions_currentTest _ _).trans (startTest_currentTest _ _)
  have hU : (handleSubmitTest (runActions (startTest zeroNegTest 0) exampleActs) 4000).userAnswers
      = [some 0, some 2] := by decide
  rw [handleSubmitTest_score, hct2, hU]
  have hcnt : countAnswers zeroNegTest.questions [some 0, some 2] = ⟨1, 1, 0⟩ := by decide
  rw [hcnt]
  unfold scorePercentage jsOrNum zeroNegTest
  norm_num

/-- C1 counterexample: for a test whose stored negativeMarking is 0 the
claimed formula yields 50% (one correct, one incorrect, no deduction),
but the code's `negativeMarking || 0.66` default records 33.5%. -/
theorem c1_counterexample :
    (handleSubmitTest (runActions (startTest zeroNegTest 0) exampleActs) 4000).score ≠
      max 0
        ((((handleSubmitTest (runActions (startTest zeroNegTest 0) exampleActs) 4000).correctAnswers : ℚ) *
            zeroNegTest.marksPerQuestion -
          ((handleSubmitTest (runActions (startTest zeroNegTest 0) exampleActs) 4000).incorrectAnswers : ℚ) *
            zeroNegTest.negativeMarking) /
          ((zeroNegTest.questions.length : ℚ) * zeroNegTest.marksPerQuestion) * 100) := by
  have hc : (handleSubmitTest (runActions (startTest zeroNegTest 0) exampleActs) 4000).correctAnswers
      = 1 := by decide
  have hi : (handleSubmitTest (runActions (startTest zeroNegTest 0) exampleActs) 4000).incorrectAnswers
      = 1 := by decide
  rw [concrete_zeroNeg_score, hc, hi]
  unfold zeroNegTest
  norm_num

theorem handleSubmitTestPart000_score (s : AttemptState) (now : ℚ) :
    (handleSubmitTestPart000 s now).score =
      scorePercentagePart000 s.currentTest
        (countAnswers s.currentTest.questions (handleSubmitTestPart000 s now).userAnswers) := rfl

theorem concrete_example_score_part000 :
    (handleSubmitTestPart000 (runActions (startTest exampleTest 0) exampleActs) 4000).score =
      67 / 2 := by
  have hct2 : (runActions (startTest exampleTest 0) exampleActs).currentTest = exampleTest :=
    (runActions_currentTest _ _).trans (startTest_currentTest _ _)
  have hU : (handleSubmitTestPart000
      (runActions (startTest exampleTest 0) exampleActs) 4000).userAnswers
      = [some 0, some 2] := by decide
  rw [handleSubmitTestPart000_score, hct2, hU]
  have hcnt : countAnswers exampleTest.questions [some 0, some 2] = ⟨1, 1, 0⟩ := by decide
  rw [hcnt]
  unfold scorePercentagePart000 jsOrNum exampleTest
  norm_num

/-- C1 (amended): the recorded score is
max(0, (correct*mpq − incorrect*neg) / (totalQuestions*mpq) * 100), with 0
when totalQuestions*mpq is 0, where the effective mpq and neg come from
the JS `||` defaults of the submitting variant: in the index.tsx variant
mpq is marksPerQuestion unless that is 0/missing (then 2) and neg is
negativeMarking unless that is 0/missing (then 0.66); in the part_000
variant the defaults are 1 and 0, so a stored 0 negative marking stays 0
there. The spec's 2-question example (marksPerQuestion=2,
negativeMarking=0.66) records correct=1, incorrect=1, unanswered=0 and
score 33.5% in both variants. -/
theorem c1_score_formula (test : Test) (t0 now : ℚ) (acts : List (Action × ℚ)) :
    ((handleSubmitTest (runActions (startTest test t0) acts) now).score =
      (if 0 < (test.questions.length : ℚ) *
          (if test.marksPerQuestion = 0 then 2 else test.marksPerQuestion) then
        max 0
          ((((handleSubmitTest (runActions (startTest test t0) acts) now).correctAnswers : ℚ) *
              (if test.marksPerQuestion = 0 then 2 else test.marksPerQuestion) -
            ((handleSubmitTest (runActions (startTest test t0) acts) now).incorrectAnswers : ℚ) *
              (if test.negativeMarking = 0 then 66 / 100 else test.negativeMarking)) /
            ((test.questions.length : ℚ) *
              (if test.marksPerQuestion = 0 then 2 else test.marksPerQuestion)) * 100)
      else 0)) ∧
    ((handleSubmitTestPart000 (runActions (startTest test t0) acts) now).score =
      (if 0 < (test.questions.length : ℚ) *
          (if test.marksPerQuestion = 0 then 1 else test.marksPerQuestion) then
        max 0
          ((((handleSubmitTestPart000 (runActions (startTest test t0) acts) now).correctAnswers : ℚ) *
              (if test.marksPerQuestion = 0 then 1 else test.marksPerQuestion) -
            ((handleSubmitTestPart000 (runActions (startTest test t0) acts) now).incorrectAnswers : ℚ) *
              (if test.negativeMarking = 0 then 0 else test.negativeMarking)) /
            ((test.questions.length : ℚ) *
              (if test.marksPerQuestion = 0 then 1 else test.marksPerQuestion)) * 100)
      else 0)) ∧
    (handleSubmitTest (runActions (startTest exampleTest 0) exampleActs) 4000).correctAnswers = 1 ∧
    (handleSubmitTest (runActions (startTest exampleTest 0) exampleActs) 4000).incorrectAnswers = 1 ∧
    (handleSubmitTest (runActions (startTest exampleTest 0) exampleActs) 4000).unanswered = 0 ∧
    (handleSubmitTest (runActions (startTest exampleTest 0) exampleActs) 4000).score = 67 / 2 ∧
    (handleSubmitTestPart000 (runActions (startTest exampleTest 0) exampleActs) 4000).score =
      67 / 2 := by
  refine ⟨?_, ?_, by decide, by decide, by decide, concrete_example_score,
    concrete_example_score_part000⟩
  · have hct : (runActions (startTest test t0) acts).currentTest = test :=
      (runActions_currentTest _ _).trans (startTest_currentTest _ _)
    have base : (handleSubmitTest (runActions (startTest test t0) acts) now).score =
        (if 0 < ((runActions (startTest test t0) acts).currentTest.questions.length : ℚ) *
            jsOrNum (runActions (startTest test t0) acts).currentTest.marksPerQuestion 2 then
          max 0
            ((((handleSubmitTest (runActions (startTest test t0) acts) now).correctAnswers : ℚ) *
                jsOrNum (runActions (startTest test t0) acts).currentTest.marksPerQuestion 2 -
              ((handleSubmitTest (runActions (startTest test t0) acts) now).incorrectAnswers : ℚ) *
                jsOrNum (runActions (startTest test t0) acts).currentTest.negativeMarking (66 / 100)) /
              (((runActions (startTest test t0) acts).currentTest.questions.length : ℚ) *
                jsOrNum (runActions (startTest test t0) acts).currentTest.marksPerQuestion 2) * 100)
        else 0) := rfl
    rw [base, hct]
    simp only [jsOrNum]
  · have hct : (runActions (startTest test t0) acts).currentTest = test :=
      (runActions_currentTest _ _).trans (startTest_currentTest _ _)
    have base : (handleSubmitTestPart000 (runActions (startTest test t0) acts) now).score =
        (if 0 < ((runActions (startTest test t0) acts).currentTest.questions.length : ℚ) *
            jsOrNum (runActions (startTest test t0) acts).currentTest.marksPerQuestion 1 then
          max 0
            ((((handleSubmitTestPart000 (runActions (startTest test t0) acts) now).correctAnswers : ℚ) *
                jsOrNum (runActions (startTest test t0) acts).currentTest.marksPerQuestion 1 -
              ((handleSubmitTestPart000 (runActions (startTest test t0) acts) now).incorrectAnswers : ℚ) *
                jsOrNum (runActions (startTest test t0) acts).currentTest.negativeMarking 0) /
              (((runActions (startTest test t0) acts).currentTest.questions.length : ℚ) *
                jsOrNum (runActions (startTest test t0) acts).currentTest.marksPerQuestion 1) * 100)
        else 0) := rfl
    rw [base, hct]
    simp only [jsOrNum]

/-! ## C5: the navigation contract -/

theorem statusRecompute_ne_notVisited (selected : Option ℕ) (cur : QuestionStatus) :
    statusRecompute selected cur ≠ QuestionStatus.notVisited := by
  unfold statusRecompute
  cases selected with
  | none =>
      dsimp only
      split
      · rename_i h
        rcases h with h | h <;> rw [h] <;> decide
      · decide
  | some v => dsimp only; split <;> decide

theorem saveCurrentAnswer_timePerQuestion (t : AttemptState) :
    (saveCurrentAnswer t).timePerQuestion = t.timePerQuestion := rfl

theorem saveCurrentAnswer_userAnswers (t : AttemptState) :
    (saveCurrentAnswer t).userAnswers =
      t.userAnswers.set t.currentQuestionIndex t.selected := rfl

theorem saveCurrentAnswer_statuses_get (t : AttemptState)
    (hi : t.currentQuestionIndex < t.questionStatuses.length) :
    (saveCurrentAnswer t).questionStatuses.get? t.currentQuestionIndex =
      some (statusRecompute t.selected
        (t.questionStatuses.getD t.currentQuestionIndex QuestionStatus.notVisited)) := by
  unfold saveCurrentAnswer statusRecompute
  dsimp only
  cases hsel : t.selected with
  | some v =>
      dsimp only
      rw [List.get?_eq_getElem?, List.getElem?_set_self hi]
  | none =>
      dsimp only
      by_cases h : isMarkedStatus
          (t.questionStatuses.getD t.currentQuestionIndex QuestionStatus.notVisited)
      · rw [if_pos h, if_pos h]
        have hg : t.questionStatuses[t.currentQuestionIndex]? =
            some (t.questionStatuses[t.currentQuestionIndex]) := List.getElem?_eq_getElem hi
        rw [List.get?_eq_getElem?, hg, List.getD_eq_getElem?_getD, hg]
        rfl
      · rw [if_neg h, if_neg h, List.get?_eq_getElem?, List.getElem?_set_self hi]

/-- C5 (amended): moving from question i to question j (i) adds the
elapsed wall-clock time since the last navigation into question i's time
bucket, (ii) commits the currently selected option (or null) as question
i's answer and recomputes question i's status by the save rule, (iii)
leaves the index unchanged when j is beyond the last question; the
per-question stopwatch restarts for every in-bounds navigation, but an
out-of-bounds navigation leaves the stopwatch start untouched in the
index.tsx variant. -/
theorem c5_navigation_contract (s : AttemptState) (now : ℚ) (j : ℤ)
    (ht : s.currentQuestionIndex < s.timePerQuestion.length)
    (ha : s.currentQuestionIndex < s.userAnswers.length)
    (hs : s.currentQuestionIndex < s.questionStatuses.length) :
    (navigateToQuestion s now j).timePerQuestion.getD s.currentQuestionIndex 0 =
      s.timePerQuestion.getD s.currentQuestionIndex 0 + (now - s.questionStartTime) / 1000 ∧
    (navigateToQuestion s now j).userAnswers.get? s.currentQuestionIndex = some s.selected ∧
    (navigateToQuestion s now j).questionStatuses.get? s.currentQuestionIndex =
      some (statusRecompute s.selected
        (s.questionStatuses.getD s.currentQuestionIndex QuestionStatus.notVisited)) ∧
    ((s.currentTest.questions.length : ℤ) ≤ j →
      (navigateToQuestion s now j).currentQuestionIndex = s.currentQuestionIndex ∧
      (navigateToQuestion s now j).questionStartTime = s.questionStartTime) ∧
    (0 ≤ j → j < (s.currentTest.questions.length : ℤ) →
      (navigateToQuestion s now j).currentQuestionIndex = j.toNat ∧
      (navigateToQuestion s now j).questionStartTime = now) := by
  obtain ⟨ct, ci, ua, qs, tp, qst, sel⟩ := s
  dsimp only at ht ha hs ⊢
  unfold navigateToQuestion
  dsimp only
  simp only [saveCurrentAnswer_currentTest]
  have hsome := saveCurrentAnswer_statuses_get
    ⟨ct, ci, ua, qs, tp.set ci (tp.getD ci 0 + (now - qst) / 1000), qst, sel⟩ hs
  dsimp only at hsome
  have htime : (saveCurrentAnswer
      ⟨ct, ci, ua, qs, tp.set ci (tp.getD ci 0 + (now - qst) / 1000), qst, sel⟩).timePerQuestion =
      tp.set ci (tp.getD ci 0 + (now - qst) / 1000) := rfl
  have hans2 : (saveCurrentAnswer
      ⟨ct, ci, ua, qs, tp.set ci (tp.getD ci 0 + (now - qst) / 1000), qst, sel⟩).userAnswers =
      ua.set ci sel := rfl
  by_cases hj1 : (ct.questions.length : ℤ) ≤ j
  · rw [if_pos hj1]
    refine ⟨?_, ?_, hsome, fun _ => ⟨rfl, rfl⟩, fun h0 hlt => absurd hlt (not_lt.mpr hj1)⟩
    · rw [htime, getD_set_eq_ite, if_pos ⟨rfl, ht⟩]
    · rw [hans2, List.get?_eq_getElem?, List.getElem?_set_self ha]
  · rw [if_neg hj1]
    by_cases hj2 : j < 0
    · rw [if_pos hj2]
      refine ⟨?_, ?_, hsome, fun hle => absurd hle hj1,
        fun h0 _ => absurd hj2 (not_lt.mpr h0)⟩
      · rw [htime, getD_set_eq_ite, if_pos ⟨rfl, ht⟩]
      · rw [hans2, List.get?_eq_getElem?, List.getElem?_set_self ha]
    · rw [if_neg hj2]
      by_cases hnv : (saveCurrentAnswer
          ⟨ct, ci, ua, qs, tp.set ci (tp.getD ci 0 + (now - qst) / 1000), qst,
            sel⟩).questionStatuses.getD j.toNat QuestionStatus.notVisited =
          QuestionStatus.notVisited
      · rw [if_pos hnv]
        dsimp only
        have hji : j.toNat ≠ ci := by
          intro hji
          rw [hji, List.getD_eq_getElem?_getD, ← List.get?_eq_getElem?, hsome] at hnv
          simp only [Option.getD_some] at hnv
          exact statusRecompute_ne_notVisited _ _ hnv
        refine ⟨?_, ?_, ?_, fun hle => absurd hle hj1, fun _ _ => ⟨rfl, rfl⟩⟩
        · rw [htime, getD_set_eq_ite, if_pos ⟨rfl, ht⟩]
        · rw [hans2, List.get?_eq_getElem?, List.getElem?_set_self ha]
        · rw [List.get?_eq_getElem?, List.getElem?_set_ne hji, ← List.get?_eq_getElem?]
          exact hsome
      · rw [if_neg hnv]
        dsimp only
        refine ⟨?_, ?_, hsome, fun hle => absurd hle hj1, fun _ _ => ⟨rfl, rfl⟩⟩
        · rw [htime, getD_set_eq_ite, if_pos ⟨rfl, ht⟩]
        · rw [hans2, List.get?_eq_getElem?, List.getElem?_set_self ha]

/-- C5 counterexample: in index.tsx, pressing Save & Next on the final
question (an out-of-bounds navigation) does not restart the per-question
stopwatch: with the stopwatch started at 0 and the navigation happening at
time 5000, the stopwatch start stays 0 instead of becoming 5000. -/
theorem c5_counterexample :
    (navigateToQuestion (startTest exampleTest 0) 5000 2).questionStartTime ≠ 5000 := by
  have h : (navigateToQuestion (startTest exampleTest 0) 5000 2).questionStartTime = 0 := by
    decide
  rw [h]
  norm_num

/-- Witness for C5 at a concrete in-bounds navigation. -/
theorem c5_navigation_contract_witness :
    (navigateToQuestion (startTest exampleTest 0) 1000 1).userAnswers.get? 0 = some none ∧
    (navigateToQuestion (startTest exampleTest 0) 1000 1).currentQuestionIndex = 1 ∧
    (navigateToQuestion (startTest exampleTest 0) 1000 1).questionStartTime = 1000 := by
  have h := c5_navigation_contract (startTest exampleTest 0) 1000 1
    (by decide) (by decide) (by decide)
  exact ⟨h.2.1, (h.2.2.2.2 (by decide) (by decide)).1, (h.2.2.2.2 (by decide) (by decide)).2⟩

/-! ## C9: marked statuses are never demoted during an attempt -/

theorem isMarked_save (t : AttemptState) (k : ℕ)
    (h : isMarkedStatus (t.questionStatuses.getD k QuestionStatus.notVisited)) :
    isMarkedStatus ((saveCurrentAnswer t).questionStatuses.getD k QuestionStatus.notVisited) := by
  unfold saveCurrentAnswer
  dsimp only
  cases hsel : t.selected with
  | some v =>
      dsimp only
      rw [getD_set_eq_ite]
      split
      · rename_i hc
        have hmark : isMarkedStatus
            (t.questionStatuses.getD t.currentQuestionIndex QuestionStatus.notVisited) := by
          rw [hc.1]; exact h
        rw [if_pos hmark]
        right; rfl
      · exact h
  | none =>
      dsimp only
      split
      · exact h
      · rename_i hnm
        rw [getD_set_eq_ite]
        split
        · rename_i hc
          exact absurd (by rw [hc.1]; exact h) hnm
        · exact h

theorem isMarked_nav (s : AttemptState) (now : ℚ) (j : ℤ) (k : ℕ)
    (h : isMarkedStatus (s.questionStatuses.getD k QuestionStatus.notVisited)) :
    isMarkedStatus
      ((navigateToQuestion s now j).questionStatuses.getD k QuestionStatus.notVisited) := by
  obtain ⟨ct, ci, ua, qs, tp, qst, sel⟩ := s
  dsimp only at h ⊢
  unfold navigateToQuestion
  dsimp only
  simp only [saveCurrentAnswer_currentTest]
  have hsave := isMarked_save
    ⟨ct, ci, ua, qs, tp.set ci (tp.getD ci 0 + (now - qst) / 1000), qst, sel⟩ k h
  split
  · exact hsave
  · split
    · exact hsave
    · dsimp only
      split
      · rename_i hnv
        dsimp only
        rw [getD_set_eq_ite]
        split
        · rename_i hc
          exfalso
          rw [hc.1] at hnv
          rw [hnv] at hsave
          exact absurd hsave (by decide)
        · exact hsave
      · exact hsave

theorem isMarked_mark (s : AttemptState) (now : ℚ) (k : ℕ)
    (h : isMarkedStatus (s.questionStatuses.getD k QuestionStatus.notVisited)) :
    isMarkedStatus ((markReview s now).questionStatuses.getD k QuestionStatus.notVisited) := by
  obtain ⟨ct, ci, ua, qs, tp, qst, sel⟩ := s
  dsimp only at h ⊢
  unfold markReview
  dsimp only
  apply isMarked_nav
  dsimp only
  rw [getD_set_eq_ite]
  split
  · split
    · right; rfl
    · left; rfl
  · exact h

theorem isMarked_step (s : AttemptState) (a : Action × ℚ) (k : ℕ)
    (h : isMarkedStatus (s.questionStatuses.getD k QuestionStatus.notVisited)) :
    isMarkedStatus ((step s a).questionStatuses.getD k QuestionStatus.notVisited) := by
  rcases a with ⟨act, t⟩
  cases act with
  | select opt =>
      show isMarkedStatus ((selectOption s opt).questionStatuses.getD k QuestionStatus.notVisited)
      unfold selectOption
      split
      · exact h
      · exact h
  | clear => exact h
  | mark => exact isMarked_mark s t k h
  | navigate j => exact isMarked_nav s t j k h

theorem isMarked_run (acts : List (Action × ℚ)) (s : AttemptState) (k : ℕ)
    (h : isMarkedStatus (s.questionStatuses.getD k QuestionStatus.notVisited)) :
    isMarkedStatus ((runActions s acts).questionStatuses.getD k QuestionStatus.notVisited) := by
  induction acts generalizing s with
  | nil => exact h
  | cons a rest ih =>
      show isMarkedStatus
        ((runActions (step s a) rest).questionStatuses.getD k QuestionStatus.notVisited)
      exact ih (step s a) (isMarked_step s a k h)

/-- C9: during an attempt, once a question's status is marked or
markedAndAnswered, no later select/clear/mark/navigate action (and no
answer commit) ever returns it to notAnswered or answered; committing a
cleared (null) answer on a markedAndAnswered question leaves the status
markedAndAnswered with a null stored answer. -/
theorem c9_marked_sticky (s : AttemptState) (acts : List (Action × ℚ)) (k : ℕ)
    (hmark : isMarkedStatus (s.questionStatuses.getD k QuestionStatus.notVisited)) :
    isMarkedStatus ((runActions s acts).questionStatuses.getD k QuestionStatus.notVisited) ∧
    (s.selected = none →
      s.questionStatuses.getD s.currentQuestionIndex QuestionStatus.notVisited =
        QuestionStatus.markedAndAnswered →
      s.currentQuestionIndex < s.userAnswers.length →
      (saveCurrentAnswer s).questionStatuses.getD s.currentQuestionIndex
          QuestionStatus.notVisited = QuestionStatus.markedAndAnswered ∧
      (saveCurrentAnswer s).userAnswers.get? s.currentQuestionIndex = some none) := by
  refine ⟨isMarked_run acts s k hmark, fun hsel hmaa hlen => ⟨?_, ?_⟩⟩
  · unfold saveCurrentAnswer
    dsimp only
    rw [hsel]
    dsimp only
    have hm : isMarkedStatus
        (s.questionStatuses.getD s.currentQuestionIndex QuestionStatus.notVisited) :=
      Or.inr hmaa
    rw [if_pos hm]
    exact hmaa
  · rw [saveCurrentAnswer_userAnswers, hsel, List.get?_eq_getElem?, List.getElem?_set_self hlen]

/-- Witness for C9: a two-question attempt whose first question is
markedAndAnswered with nothing selected; marking, navigating back and
forth and clearing never demote it, and the null commit keeps the mark. -/
theorem c9_marked_sticky_witness :
    isMarkedStatus
      ((runActions
          ⟨exampleTest, 0, [some 1, none],
            [QuestionStatus.markedAndAnswered, QuestionStatus.notAnswered], [0, 0], 0, none⟩
          [(Action.mark, 100), (Action.navigate 0, 200), (Action.clear, 300),
            (Action.navigate 1, 400)]).questionStatuses.getD 0 QuestionStatus.notVisited) ∧
    (saveCurrentAnswer
        ⟨exampleTest, 0, [some 1, none],
          [QuestionStatus.markedAndAnswered, QuestionStatus.notAnswered], [0, 0], 0,
          none⟩).questionStatuses.getD 0 QuestionStatus.notVisited =
      QuestionStatus.markedAndAnswered ∧
    (saveCurrentAnswer
        ⟨exampleTest, 0, [some 1, none],
          [QuestionStatus.markedAndAnswered, QuestionStatus.notAnswered], [0, 0], 0,
          none⟩).userAnswers.get? 0 = some none := by
  have h := c9_marked_sticky
    ⟨exampleTest, 0, [some 1, none],
      [QuestionStatus.markedAndAnswered, QuestionStatus.notAnswered], [0, 0], 0, none⟩
    [(Action.mark, 100), (Action.navigate 0, 200), (Action.clear, 300), (Action.navigate 1, 400)]
    0 (by decide)
  exact ⟨h.1, (h.2 rfl (by decide) (by decide)).1, (h.2 rfl (by decide) (by decide)).2⟩

/-! ## C6: the countdown timer -/

/-- C6: when the countdown reaches 0 during an attempt, exactly one
submission is triggered, the user is notified once, and no further tick
has any effect; starting a timer while one is registered first cancels the
previous interval (so at most one interval is ever live); and the timer is
stopped by manual submit and by abandon. -/
theorem c6_timer (s : TimerState) (id id2 : ℕ) (hwf : timerWf s)
    (hid : s.timerInterval = some id) (hz : s.timeRemaining ≤ 1) :
    ((timerTick s id).submissions = s.submissions + 1 ∧
      (timerTick s id).notifications = s.notifications + 1 ∧
      (timerTick s id).liveIntervals = [] ∧
      (timerTick s id).timerInterval = none ∧
      timerTick (timerTick s id) id2 = timerTick s id) ∧
    (id ∉ (startTimer s).liveIntervals ∧
      (startTimer s).liveIntervals = [s.nextId] ∧ timerWf (startTimer s)) ∧
    ((submitEffect s).timerInterval = none ∧ (submitEffect s).liveIntervals = [] ∧
      (abandonTest s).timerInterval = none ∧ (abandonTest s).liveIntervals = []) := by
  obtain ⟨ti, li, ni, tr, sub, notif⟩ := s
  obtain ⟨h1, h2⟩ := hwf
  dsimp only at hid hz h1 h2 ⊢
  subst hid
  subst h1
  have hidni : id < ni := h2 id (by simp [Option.toList])
  have htick : timerTick ⟨some id, (some id).toList, ni, tr, sub, notif⟩ id =
      ⟨none, [], ni, tr - 1, sub + 1, notif + 1⟩ := by
    unfold timerTick
    rw [if_pos (show id ∈ (some id).toList by simp [Option.toList])]
    dsimp only
    rw [if_pos (show tr - 1 ≤ 0 by omega)]
    unfold submitEffect stopTimer clearIntervalJs
    dsimp only
    simp [Option.toList]
  refine ⟨?_, ?_, ?_⟩
  · rw [htick]
    refine ⟨rfl, rfl, rfl, rfl, ?_⟩
    unfold timerTick
    rw [if_neg (by simp)]
  · unfold startTimer clearIntervalJs timerWf
    dsimp only
    simp only [Option.toList]
    have hfe : List.filter (fun x => decide (x ≠ id)) [id] = [] := by simp
    rw [hfe, List.nil_append]
    refine ⟨?_, rfl, rfl, ?_⟩
    · simp
      omega
    · intro x hx
      simp at hx
      omega
  · unfold submitEffect abandonTest stopTimer clearIntervalJs
    dsimp only
    simp [Option.toList]

/-- Witness for C6: a timer one second from the end, registered as
interval 0. -/
theorem c6_timer_witness :
    (timerTick ⟨some 0, [0], 1, 1, 4, 7⟩ 0).submissions = 5 ∧
    (timerTick ⟨some 0, [0], 1, 1, 4, 7⟩ 0).notifications = 8 ∧
    timerTick (timerTick ⟨some 0, [0], 1, 1, 4, 7⟩ 0) 3 =
      timerTick ⟨some 0, [0], 1, 1, 4, 7⟩ 0 ∧
    (startTimer ⟨some 0, [0], 1, 1, 4, 7⟩).liveIntervals = [1] := by
  have h := c6_timer ⟨some 0, [0], 1, 1, 4, 7⟩ 0 3 (by decide) rfl (by decide)
  exact ⟨h.1.1, h.1.2.1, h.1.2.2.2.2, h.2.1.2.1⟩

/-! ## C10: POST /api/sync replaces exactly the caller's data -/

theorem filter_not_filter_self {α : Type} (userId : α → String) (dbl : List α) (u : String) :
    (dbl.filter (fun t => ¬ userId t = u)).filter (fun t => userId t = u) = [] := by
  rw [List.filter_eq_nil_iff]
  intro a ha
  rw [List.mem_filter] at ha
  simp only [decide_not, Bool.not_eq_true'] at ha
  simp [of_decide_eq_false ha.2]

theorem filter_not_filter_other {α : Type} (userId : α → String) (dbl : List α) (u v : String)
    (hv : v ≠ u) :
    (dbl.filter (fun t => ¬ userId t = u)).filter (fun t => userId t = v) =
      dbl.filter (fun t => userId t = v) := by
  rw [List.filter_filter]
  apply List.filter_congr
  intro a _
  by_cases hav : userId a = v
  · simp [hav, hv]
  · simp [hav]

theorem filter_stamped_self {α : Type} (userId : α → String) (new : List α) (u : String)
    (hnew : ∀ t ∈ new, userId t = u) :
    new.filter (fun t => userId t = u) = new :=
  List.filter_eq_self.mpr (fun a ha => by simp [hnew a ha])

theorem filter_stamped_other {α : Type} (userId : α → String) (new : List α) (u v : String)
    (hnew : ∀ t ∈ new, userId t = u) (hv : v ≠ u) :
    new.filter (fun t => userId t = v) = [] :=
  List.filter_eq_nil_iff.mpr (fun a ha => by simp [hnew a ha, Ne.symm hv])

theorem stamped_tests_userId (ts : List BackendTest) (u : String) :
    ∀ t ∈ ts.map (fun t => { t with userId := u }), t.userId = u := by
  intro t ht
  rw [List.mem_map] at ht
  obtain ⟨a, _, rfl⟩ := ht
  rfl

theorem stamped_attempts_userId (atts : List BackendAttempt) (u : String) :
    ∀ a ∈ atts.map (fun a => { a with userId := u }), a.userId = u := by
  intro a ha
  rw [List.mem_map] at ha
  obtain ⟨b, _, rfl⟩ := ha
  rfl

/-- C10: POST /api/sync replaces the authenticated user's entire stored
set of tests and attempts with the request body's arrays, stamping each
record with the user's id (a missing/non-array field leaves that
collection empty for the user), while every other user's records are
unchanged. -/
theorem c10_post_sync (u v : String) (tests : Option (List BackendTest))
    (attempts : Option (List BackendAttempt)) (db : Db) (hv : v ≠ u) :
    (postSyncHandler u tests attempts db).2.tests.filter (fun t => t.userId = u) =
      (tests.getD []).map (fun t => { t with userId := u }) ∧
    (postSyncHandler u tests attempts db).2.attempts.filter (fun a => a.userId = u) =
      (attempts.getD []).map (fun a => { a with userId := u }) ∧
    (postSyncHandler u tests attempts db).2.tests.filter (fun t => t.userId = v) =
      db.tests.filter (fun t => t.userId = v) ∧
    (postSyncHandler u tests attempts db).2.attempts.filter (fun a => a.userId = v) =
      db.attempts.filter (fun a => a.userId = v) ∧
    (postSyncHandler u tests attempts db).1 = ApiResponse.saved := by
  unfold postSyncHandler
  cases tests with
  | none =>
      cases attempts with
      | none =>
          refine ⟨?_, ?_, ?_, ?_, rfl⟩
          · exact filter_not_filter_self BackendTest.userId db.tests u
          · exact filter_not_filter_self BackendAttempt.userId db.attempts u
          · exact filter_not_filter_other BackendTest.userId db.tests u v hv
          · exact filter_not_filter_other BackendAttempt.userId db.attempts u v hv
      | some atts =>
          refine ⟨?_, ?_, ?_, ?_, rfl⟩
          · exact filter_not_filter_self BackendTest.userId db.tests u
          · rw [List.filter_append,
              filter_not_filter_self BackendAttempt.userId db.attempts u,
              filter_stamped_self BackendAttempt.userId _ u (stamped_attempts_userId atts u),
              List.nil_append]
            rfl
          · exact filter_not_filter_other BackendTest.userId db.tests u v hv
          · rw [List.filter_append,
              filter_not_filter_other BackendAttempt.userId db.attempts u v hv,
              filter_stamped_other BackendAttempt.userId _ u v
                (stamped_attempts_userId atts u) hv,
              List.append_nil]
  | some ts =>
      cases attempts with
      | none =>
          refine ⟨?_, ?_, ?_, ?_, rfl⟩
          · rw [List.filter_append,
              filter_not_filter_self BackendTest.userId db.tests u,
              filter_stamped_self BackendTest.userId _ u (stamped_tests_userId ts u),
              List.nil_append]
            rfl
          · exact filter_not_filter_self BackendAttempt.userId db.attempts u
          · rw [List.filter_append,
              filter_not_filter_other BackendTest.userId db.tests u v hv,
              filter_stamped_other BackendTest.userId _ u v (stamped_tests_userId ts u) hv,
              List.append_nil]
          · exact filter_not_filter_other BackendAttempt.userId db.attempts u v hv
      | some atts =>
          refine ⟨?_, ?_, ?_, ?_, rfl⟩
          · rw [List.filter_append,
              filter_not_filter_self BackendTest.userId db.tests u,
              filter_stamped_self BackendTest.userId _ u (stamped_tests_userId ts u),
              List.nil_append]
            rfl
          · rw [List.filter_append,
              filter_not_filter_self BackendAttempt.userId db.attempts u,
              filter_stamped_self BackendAttempt.userId _ u (stamped_attempts_userId atts u),
              List.nil_append]
            rfl
          · rw [List.filter_append,
              filter_not_filter_other BackendTest.userId db.tests u v hv,
              filter_stamped_other BackendTest.userId _ u v (stamped_tests_userId ts u) hv,
              List.append_nil]
          · rw [List.filter_append,
              filter_not_filter_other BackendAttempt.userId db.attempts u v hv,
              filter_stamped_other BackendAttempt.userId _ u v
                (stamped_attempts_userId atts u) hv,
              List.append_nil]

/-- Witness for C10: bob's record survives alice's sync unchanged, and
alice's collection becomes exactly the posted array. -/
theorem c10_post_sync_witness :
    (postSyncHandler "alice" (some [⟨"t9", "", "New"⟩]) none
        ⟨[⟨"t1", "alice", "A"⟩, ⟨"t2", "bob", "B"⟩], []⟩).2.tests.filter
      (fun t => t.userId = "alice") = [⟨"t9", "alice", "New"⟩] ∧
    (postSyncHandler "alice" (some [⟨"t9", "", "New"⟩]) none
        ⟨[⟨"t1", "alice", "A"⟩, ⟨"t2", "bob", "B"⟩], []⟩).2.tests.filter
      (fun t => t.userId = "bob") = [⟨"t2", "bob", "B"⟩] := by
  have h := c10_post_sync "alice" "bob" (some [⟨"t9", "", "New"⟩]) none
    ⟨[⟨"t1", "alice", "A"⟩, ⟨"t2", "bob", "B"⟩], []⟩ (by decide)
  refine ⟨?_, ?_⟩
  · rw [h.1]; rfl
  · rw [h.2.2.1]; rfl

/-! ## C8: authentication and per-user read scoping -/

theorem authenticateToken_denied_code (verify : String → Option String)
    (h : Option String) (c : ℕ)
    (hd : authenticateToken verify h = AuthOutcome.denied c) : c = 401 ∨ c = 403 := by
  unfold authenticateToken at hd
  cases hex : extractToken h with
  | none =>
      rw [hex] at hd
      left
      cases hd
      rfl
  | some t =>
      rw [hex] at hd
      dsimp only at hd
      cases hv : verify t with
      | none =>
          rw [hv] at hd
          right
          cases hd
          rfl
      | some w =>
          rw [hv] at hd
          cases hd

/-- C8: every data route (each is wrapped in `authenticateToken`) rejects
a request without a valid bearer token with a 401/403 error and leaves the
store untouched; every read of tests or attempts returns only records
whose userId is the authenticated user's id; and the response to the
user's GET /api/tests, /api/attempts and /api/sync depends only on that
user's stored records, so two stores agreeing on them give identical
responses. -/
theorem c8_auth_scoping (verify : String → Option String)
    (badHeader goodHeader : Option String) (freshId : String) (r : ApiRequest)
    (db db1 db2 : Db) (u : String)
    (hbad : ∀ w, authenticateToken verify badHeader ≠ AuthOutcome.ok w)
    (hok : authenticateToken verify goodHeader = AuthOutcome.ok u)
    (htests : db1.tests.filter (fun t => t.userId = u) =
      db2.tests.filter (fun t => t.userId = u))
    (hatts : db1.attempts.filter (fun a => a.userId = u) =
      db2.attempts.filter (fun a => a.userId = u)) :
    (∃ c, handleRequest verify badHeader freshId r db = (ApiResponse.error c, db) ∧
      (c = 401 ∨ c = 403)) ∧
    (∀ ts, (handleRequest verify goodHeader freshId ApiRequest.getTests db).1 =
      ApiResponse.testList ts → ∀ t ∈ ts, t.userId = u) ∧
    (∀ atts, (handleRequest verify goodHeader freshId ApiRequest.getAttempts db).1 =
      ApiResponse.attemptList atts → ∀ a ∈ atts, a.userId = u) ∧
    (∀ ts atts, (handleRequest verify goodHeader freshId ApiRequest.getSync db).1 =
      ApiResponse.syncData ts atts →
      (∀ t ∈ ts, t.userId = u) ∧ ∀ a ∈ atts, a.userId = u) ∧
    (handleRequest verify goodHeader freshId ApiRequest.getTests db1).1 =
      (handleRequest verify goodHeader freshId ApiRequest.getTests db2).1 ∧
    (handleRequest verify goodHeader freshId ApiRequest.getAttempts db1).1 =
      (handleRequest verify goodHeader freshId ApiRequest.getAttempts db2).1 ∧
    (handleRequest verify goodHeader freshId ApiRequest.getSync db1).1 =
      (handleRequest verify goodHeader freshId ApiRequest.getSync db2).1 := by
  refine ⟨?_, ?_, ?_, ?_, ?_, ?_, ?_⟩
  · cases hda : authenticateToken verify badHeader with
    | ok w => exact absurd hda (hbad w)
    | denied c =>
        refine ⟨c, ?_, authenticateToken_denied_code verify badHeader c hda⟩
        unfold handleRequest
        rw [hda]
  · intro ts heq
    unfold handleRequest at heq
    rw [hok] at heq
    unfold getTestsHandler at heq
    dsimp only at heq
    cases heq
    intro t ht
    rw [List.mem_filter] at ht
    exact of_decide_eq_true ht.2
  · intro atts heq
    unfold handleRequest at heq
    rw [hok] at heq
    unfold getAttemptsHandler at heq
    dsimp only at heq
    cases heq
    intro a ha
    rw [List.mem_filter] at ha
    exact of_decide_eq_true ha.2
  · intro ts atts heq
    unfold handleRequest at heq
    rw [hok] at heq
    unfold getSyncHandler at heq
    dsimp only at heq
    cases heq
    constructor
    · intro t ht
      rw [List.mem_filter] at ht
      exact of_decide_eq_true ht.2
    · intro a ha
      rw [List.mem_filter] at ha
      exact of_decide_eq_true ha.2
  · unfold handleRequest
    rw [hok]
    unfold getTestsHandler
    dsimp only
    rw [htests]
  · unfold handleRequest
    rw [hok]
    unfold getAttemptsHandler
    dsimp only
    rw [hatts]
  · unfold handleRequest
    rw [hok]
    unfold getSyncHandler
    dsimp only
    rw [htests, hatts]

/-- Witness for C8: a concrete verifier accepting only the token `tok`
as alice, a request with no Authorization header, and two stores agreeing
on alice's records. -/
theorem c8_auth_scoping_witness :
    (∃ c, handleRequest (fun t => if t = "tok" then some "alice" else none) none "f"
        ApiRequest.getTests ⟨[⟨"t1", "alice", "A"⟩, ⟨"t2", "bob", "B"⟩], []⟩ =
      (ApiResponse.error c, ⟨[⟨"t1", "alice", "A"⟩, ⟨"t2", "bob", "B"⟩], []⟩) ∧
      (c = 401 ∨ c = 403)) ∧
    (handleRequest (fun t => if t = "tok" then some "alice" else none) (some "Bearer tok") "f"
        ApiRequest.getTests ⟨[⟨"t1", "alice", "A"⟩, ⟨"t2", "bob", "B"⟩], []⟩).1 =
      (handleRequest (fun t => if t = "tok" then some "alice" else none) (some "Bearer tok") "f"
        ApiRequest.getTests ⟨[⟨"t1", "alice", "A"⟩], []⟩).1 := by
  have h := c8_auth_scoping (fun t => if t = "tok" then some "alice" else none)
    none (some "Bearer tok") "f" ApiRequest.getTests
    ⟨[⟨"t1", "alice", "A"⟩, ⟨"t2", "bob", "B"⟩], []⟩
    ⟨[⟨"t1", "alice", "A"⟩, ⟨"t2", "bob", "B"⟩], []⟩
    ⟨[⟨"t1", "alice", "A"⟩], []⟩ "alice"
    (fun w h => AuthOutcome.noConfusion h) (by decide) (by decide) (by decide)
  exact ⟨h.1, h.2.2.2.2.1⟩

/-! ## C3: restoring a backup merges and de-duplicates tests by id -/

theorem find_map_replace (m : List (String × Test)) (k : String) (v : Test)
    (hany : m.any (fun p => p.1 = k) = true) :
    (m.map (fun p => if p.1 = k then (k, v) else p)).find? (fun p => p.1 = k) =
      some (k, v) := by
  induction m with
  | nil => simp at hany
  | cons e rest ih =>
      by_cases he : e.1 = k
      · simp [he, List.find?]
      · rw [List.any_cons] at hany
        have hany2 : rest.any (fun p => p.1 = k) = true := by simpa [he] using hany
        simp only [List.map_cons, if_neg he]
        rw [List.find?_cons_of_neg _ (by simpa using he)]
        exact ih hany2

theorem find_map_replace_ne (m : List (String × Test)) (k key : String) (v : Test)
    (hk : k ≠ key) :
    (m.map (fun p => if p.1 = k then (k, v) else p)).find? (fun p => p.1 = key) =
      m.find? (fun p => p.1 = key) := by
  induction m with
  | nil => rfl
  | cons e rest ih =>
      by_cases he : e.1 = k
      · simp only [List.map_cons, if_pos he]
        rw [List.find?_cons_of_neg _ (by simpa using hk),
          List.find?_cons_of_neg _ (by simp [he, hk])]
        exact ih
      · simp only [List.map_cons, if_neg he]
        by_cases hek : e.1 = key
        · rw [List.find?_cons_of_pos _ (by simpa using hek),
            List.find?_cons_of_pos _ (by simpa using hek)]
        · rw [List.find?_cons_of_neg _ (by simpa using hek),
            List.find?_cons_of_neg _ (by simpa using hek)]
          exact ih

theorem jsMapSet_find (m : List (String × Test)) (k key : String) (v : Test) :
    (jsMapSet m k v).find? (fun p => p.1 = key) =
      if k = key then some (k, v) else m.find? (fun p => p.1 = key) := by
  unfold jsMapSet
  by_cases hany : m.any (fun p => p.1 = k)
  · rw [if_pos hany]
    by_cases hk : k = key
    · subst hk
      rw [if_pos rfl]
      exact find_map_replace m k v hany
    · rw [if_neg hk]
      exact find_map_replace_ne m k key v hk
  · rw [if_neg hany, List.find?_append]
    by_cases hk : k = key
    · subst hk
      have hnone : m.find? (fun p => p.1 = k) = none :=
        List.find?_eq_none.mpr (fun x hx hpx =>
          hany (List.any_eq_true.mpr ⟨x, hx, hpx⟩))
      rw [hnone, if_pos rfl]
      simp [List.find?]
    · rw [if_neg hk]
      have hsing : ([(k, v)] : List (String × Test)).find? (fun p => p.1 = key) = none := by
        simp [List.find?, hk]
      rw [hsing, Option.or_none]

theorem jsMapSet_keys (m : List (String × Test)) (k : String) (v : Test) :
    (jsMapSet m k v).map Prod.fst =
      if m.any (fun p => p.1 = k) then m.map Prod.fst else m.map Prod.fst ++ [k] := by
  unfold jsMapSet
  split
  · rw [List.map_map]
    apply List.map_congr_left
    intro p _
    by_cases h : p.1 = k
    · simp [h]
    · simp [h]
  · simp

theorem foldl_jsMapSet_keys_nodup (entries : List (String × Test))
    (acc : List (String × Test)) (hacc : (acc.map Prod.fst).Nodup) :
    ((entries.foldl (fun m e => jsMapSet m e.1 e.2) acc).map Prod.fst).Nodup := by
  induction entries generalizing acc with
  | nil => exact hacc
  | cons e rest ih =>
      rw [List.foldl_cons]
      apply ih
      rw [jsMapSet_keys]
      split
      · exact hacc
      · rename_i hne
        rw [List.nodup_append]
        refine ⟨hacc, List.nodup_singleton e.1, ?_⟩
        intro x hx hx1
        rw [List.mem_singleton] at hx1
        subst hx1
        rw [List.mem_map] at hx
        obtain ⟨p, hp, hpk⟩ := hx
        exact hne (List.any_eq_true.mpr ⟨p, hp, by simp [hpk]⟩)

theorem foldl_jsMapSet_find (entries : List (String × Test))
    (acc : List (String × Test)) (key : String) :
    (entries.foldl (fun m e => jsMapSet m e.1 e.2) acc).find? (fun p => p.1 = key) =
      (entries.reverse.find? (fun p => p.1 = key)).or
        (acc.find? (fun p => p.1 = key)) := by
  induction entries generalizing acc with
  | nil => simp
  | cons e rest ih =>
      rw [List.foldl_cons, ih, jsMapSet_find, List.reverse_cons, List.find?_append]
      by_cases hek : e.1 = key
      · have hsing : ([e] : List (String × Test)).find? (fun p => p.1 = key) = some e := by
          simp [List.find?, hek]
        rw [hsing, if_pos hek]
        cases hr : rest.reverse.find? (fun p => p.1 = key) <;> simp
      · have hsing : ([e] : List (String × Test)).find? (fun p => p.1 = key) = none := by
          simp [List.find?, hek]
        rw [hsing, if_neg hek, Option.or_none]

theorem foldl_jsMapSet_pairs (entries : List (String × Test))
    (acc : List (String × Test)) (hacc : ∀ p ∈ acc, p.1 = p.2.id)
    (hent : ∀ p ∈ entries, p.1 = p.2.id) :
    ∀ p ∈ entries.foldl (fun m e => jsMapSet m e.1 e.2) acc, p.1 = p.2.id := by
  induction entries generalizing acc with
  | nil => exact hacc
  | cons e rest ih =>
      rw [List.foldl_cons]
      apply ih
      · intro p hp
        unfold jsMapSet at hp
        split at hp
        · rw [List.mem_map] at hp
          obtain ⟨q, hq, hqe⟩ := hp
          by_cases hqk : q.1 = e.1
          · rw [if_pos hqk] at hqe
            subst hqe
            exact hent e (List.mem_cons_self e rest)
          · rw [if_neg hqk] at hqe
            subst hqe
            exact hacc q hq
        · rw [List.mem_append] at hp
          rcases hp with hp | hp
          · exact hacc p hp
          · rw [List.mem_singleton] at hp
            subst hp
            exact hent e (List.mem_cons_self e rest)
      · intro p hp
        exact hent p (List.mem_cons_of_mem e hp)

theorem find_values (m : List (String × Test)) (hinv : ∀ p ∈ m, p.1 = p.2.id)
    (key : String) :
    (m.map Prod.snd).find? (fun t => t.id = key) =
      (m.find? (fun p => p.1 = key)).map Prod.snd := by
  induction m with
  | nil => rfl
  | cons e rest ih =>
      have he : e.1 = e.2.id := hinv e (List.mem_cons_self e rest)
      by_cases hk : e.1 = key
      · rw [List.map_cons, List.find?_cons_of_pos _ (by simp [← he, hk]),
          List.find?_cons_of_pos _ (by simpa using hk)]
        rfl
      · rw [List.map_cons, List.find?_cons_of_neg _ (by simp [← he, hk]),
          List.find?_cons_of_neg _ (by simpa using hk)]
        exact ih (fun p hp => hinv p (List.mem_cons_of_mem e hp))

theorem find_reverse_of_countP {α : Type} (l : List α) (p : α → Bool)
    (hc : l.countP p ≤ 1) :
    l.reverse.find? p = l.find? p := by
  induction l with
  | nil => rfl
  | cons a rest ih =>
      rw [List.reverse_cons, List.find?_append]
      by_cases hpa : p a
      · have h0 : rest.countP p = 0 := by
          rw [List.countP_cons, if_pos hpa] at hc
          omega
        have hrn : rest.find? p = none :=
          List.find?_eq_none.mpr (fun x hx hpx => by
            have := List.countP_eq_zero.mp h0 x hx
            exact this hpx)
        have hrrn : rest.reverse.find? p = none :=
          List.find?_eq_none.mpr (fun x hx hpx =>
            List.find?_eq_none.mp hrn x (List.mem_reverse.mp hx) hpx)
        rw [hrrn, List.find?_cons_of_pos _ hpa]
        simp [List.find?, hpa]
      · have hle : rest.countP p ≤ 1 := by
          rw [List.countP_cons, if_neg hpa] at hc
          omega
        have hsing : ([a] : List α).find? p = none := by
          simp [List.find?, hpa]
        rw [ih hle, hsing, Option.or_none, List.find?_cons_of_neg _ hpa]

theorem countP_id_le_one (l : List Test) (key : String)
    (h : (l.map Test.id).Nodup) : l.countP (fun t => t.id = key) ≤ 1 := by
  induction l with
  | nil => simp
  | cons t rest ih =>
      rw [List.map_cons, List.nodup_cons] at h
      rw [List.countP_cons]
      by_cases ht : t.id = key
      · have h0 : rest.countP (fun t => t.id = key) = 0 := by
          rw [List.countP_eq_zero]
          intro a ha hak
          apply h.1
          have hak2 : a.id = key := by simpa using hak
          rw [← ht] at hak2
          exact List.mem_map.mpr ⟨a, ha, hak2⟩
        simp [ht, h0]
      · rw [if_neg (by simpa using ht)]
        have := ih h.2
        omega

/-- The pairing `item => [item.id, item]` used by the restore listener. -/
theorem restore_pairs_inv (l : List Test) :
    ∀ p ∈ l.map (fun t => (t.id, t)), p.1 = p.2.id := by
  intro p hp
  rw [List.mem_map] at hp
  obtain ⟨t, _, rfl⟩ := hp
  rfl

/-- C3 (amended): restoring a backup merges the backup's tests with the
locally stored tests and de-duplicates by test id, so no id appears
twice; when a test id exists both locally and in the backup, the LOCAL
copy is the one kept (the merge lists imported tests first and the JS Map
keeps the last entry per key). -/
theorem c3_restore_merge (backup current : List Test) (key : String)
    (hb : (backup.map Test.id).Nodup) (hc : (current.map Test.id).Nodup) :
    ((restoreMergeTests (some backup) current).map Test.id).Nodup ∧
    (restoreMergeTests (some backup) current).find? (fun t => t.id = key) =
      (if current.any (fun t => t.id = key) then current.find? (fun t => t.id = key)
       else backup.find? (fun t => t.id = key)) := by
  have hinv : ∀ p ∈ jsMapFromEntries ((backup ++ current).map (fun t => (t.id, t))),
      p.1 = p.2.id :=
    foldl_jsMapSet_pairs _ [] (by simp) (restore_pairs_inv _)
  constructor
  · have hkeys : ((jsMapFromEntries
        ((backup ++ current).map (fun t => (t.id, t)))).map Prod.fst).Nodup :=
      foldl_jsMapSet_keys_nodup _ [] (by simp)
    have heq : ((jsMapFromEntries
          ((backup ++ current).map (fun t => (t.id, t)))).map Prod.snd).map Test.id =
        (jsMapFromEntries ((backup ++ current).map (fun t => (t.id, t)))).map Prod.fst := by
      rw [List.map_map]
      apply List.map_congr_left
      intro p hp
      exact (hinv p hp).symm
    show (((jsMapFromEntries
        ((backup ++ current).map (fun t => (t.id, t)))).map Prod.snd).map Test.id).Nodup
    rw [heq]
    exact hkeys
  · show ((jsMapFromEntries
        ((backup ++ current).map (fun t => (t.id, t)))).map Prod.snd).find?
        (fun t => t.id = key) = _
    rw [find_values _ hinv key]
    unfold jsMapFromEntries
    rw [foldl_jsMapSet_find _ [] key]
    have hcomp : ((fun p : String × Test => decide (p.1 = key)) ∘ (fun t : Test => (t.id, t))) =
        (fun t : Test => decide (t.id = key)) := rfl
    have hcr : (current.map (fun t => (t.id, t))).reverse.find? (fun p => p.1 = key) =
        (current.find? (fun t => t.id = key)).map (fun t => (t.id, t)) := by
      rw [← List.map_reverse, List.find?_map, hcomp,
        find_reverse_of_countP current _ (countP_id_le_one current key hc)]
    have hbr : (backup.map (fun t => (t.id, t))).reverse.find? (fun p => p.1 = key) =
        (backup.find? (fun t => t.id = key)).map (fun t => (t.id, t)) := by
      rw [← List.map_reverse, List.find?_map, hcomp,
        find_reverse_of_countP backup _ (countP_id_le_one backup key hb)]
    have hsplit : ((backup ++ current).map (fun t => (t.id, t))).reverse.find?
        (fun p => p.1 = key) =
        ((current.find? (fun t => t.id = key)).map (fun t => (t.id, t))).or
          ((backup.find? (fun t => t.id = key)).map (fun t => (t.id, t))) := by
      rw [List.map_append, List.reverse_append, List.find?_append, hcr, hbr]
    rw [hsplit]
    have hnilf : (([] : List (String × Test)).find? (fun p => p.1 = key)) = none := rfl
    rw [hnilf, Option.or_none]
    cases hcf : current.find? (fun t => t.id = key) with
    | some t =>
        have hmem := List.mem_of_find?_eq_some hcf
        have hpt := List.find?_some hcf
        rw [if_pos (List.any_eq_true.mpr ⟨t, hmem, hpt⟩)]
        simp [Option.or]
    | none =>
        have hanyf : ¬ current.any (fun t => t.id = key) = true := by
          rw [List.any_eq_true]
          rintro ⟨x, hx, hpx⟩
          exact List.find?_eq_none.mp hcf x hx hpx
        rw [if_neg hanyf]
        cases hbf : backup.find? (fun t => t.id = key) <;> simp [hbf]

/-- C3 counterexample: a backup and local store both holding test id t1;
the restore keeps the LOCAL copy rather than the imported one, so the
claim that the most recent imported copy wins is false. -/
theorem c3_counterexample :
    restoreMergeTests (some [backupCopy]) [localCopy] = [localCopy] ∧ localCopy ≠ backupCopy := by
  constructor
  · rfl
  · intro h
    exact absurd (congrArg Test.name h) (by decide)

/-- Witness for C3 at the concrete one-test backup and store. -/
theorem c3_restore_merge_witness :
    ((restoreMergeTests (some [backupCopy]) [localCopy]).map Test.id).Nodup ∧
    (restoreMergeTests (some [backupCopy]) [localCopy]).find? (fun t => t.id = "t1") =
      some localCopy := by
  have h := c3_restore_merge [backupCopy] [localCopy] "t1" (by decide) (by decide)
  refine ⟨h.1, ?_⟩
  rw [h.2, if_pos (by decide)]
  rfl

/-! ## C4: the streak metric -/

theorem foldl_dedup_mem (l acc : List ℤ) (x : ℤ) :
    x ∈ l.foldl (fun acc d => if d ∈ acc then acc else acc ++ [d]) acc ↔
      x ∈ acc ∨ x ∈ l := by
  induction l generalizing acc with
  | nil => simp
  | cons d rest ih =>
      rw [List.foldl_cons, ih]
      by_cases h : d ∈ acc
      · rw [if_pos h]
        simp only [List.mem_cons]
        constructor
        · rintro (hx | hx)
          · exact Or.inl hx
          · exact Or.inr (Or.inr hx)
        · rintro (hx | hx | hx)
          · exact Or.inl hx
          · exact Or.inl (hx ▸ h)
          · exact Or.inr hx
      · rw [if_neg h]
        simp only [List.mem_append, List.mem_singleton, List.mem_cons,
          List.not_mem_nil, or_false]
        exact or_assoc

theorem foldl_dedup_nodup (l acc : List ℤ) (hacc : acc.Nodup) :
    (l.foldl (fun acc d => if d ∈ acc then acc else acc ++ [d]) acc).Nodup := by
  induction l generalizing acc with
  | nil => exact hacc
  | cons d rest ih =>
      rw [List.foldl_cons]
      apply ih
      by_cases h : d ∈ acc
      · rw [if_pos h]; exact hacc
      · rw [if_neg h, List.nodup_append]
        exact ⟨hacc, List.nodup_singleton d,
          fun x hx hxd => h (by rwa [List.mem_singleton.mp hxd] at hx)⟩

theorem foldl_dedup_length (l acc : List ℤ) :
    (l.foldl (fun acc d => if d ∈ acc then acc else acc ++ [d]) acc).length ≤
      acc.length + l.length := by
  induction l generalizing acc with
  | nil => simp
  | cons d rest ih =>
      rw [List.foldl_cons]
      have h1 := ih (if d ∈ acc then acc else acc ++ [d])
      have h2 : (if d ∈ acc then acc else acc ++ [d]).length ≤ acc.length + 1 := by
        split <;> simp
      rw [List.length_cons]
      omega

theorem jsSetDedup_mem (l : List ℤ) (x : ℤ) : x ∈ jsSetDedup l ↔ x ∈ l := by
  unfold jsSetDedup
  rw [foldl_dedup_mem]
  simp

theorem jsSetDedup_nodup (l : List ℤ) : (jsSetDedup l).Nodup :=
  foldl_dedup_nodup l [] List.nodup_nil

theorem jsSetDedup_length (l : List ℤ) : (jsSetDedup l).length ≤ l.length := by
  have := foldl_dedup_length l []
  simpa using this

theorem consecutiveRun_of_not_mem (dates : List ℤ) (d : ℤ) (fuel : ℕ) (h : d ∉ dates) :
    consecutiveRun dates d fuel = 0 := by
  cases fuel with
  | zero => rfl
  | succ f => unfold consecutiveRun; rw [if_neg h]

theorem streakWalk_eq_consecutiveRun (rest : List ℤ) :
    ∀ (d0 : ℤ) (dates : List ℤ) (fuel : ℕ),
      (d0 :: rest).Pairwise (fun a b => b < a) →
      (∀ x, x ≤ d0 → (x ∈ dates ↔ x ∈ d0 :: rest)) →
      (d0 :: rest).length ≤ fuel →
      consecutiveRun dates d0 fuel = 1 + streakWalk d0 rest := by
  induction rest with
  | nil =>
      intro d0 dates fuel hsort hmem hfuel
      obtain ⟨f, rfl⟩ : ∃ f, fuel = f + 1 := ⟨fuel - 1, by simp at hfuel; omega⟩
      have hnm : d0 - 1 ∉ dates := by
        intro hm
        have h2 := (hmem (d0 - 1) (by omega)).mp hm
        rw [List.mem_singleton] at h2
        omega
      unfold consecutiveRun
      rw [if_pos ((hmem d0 le_rfl).mpr (List.mem_singleton.mpr rfl)),
        consecutiveRun_of_not_mem dates (d0 - 1) f hnm]
      rfl
  | cons d1 rest2 ih =>
      intro d0 dates fuel hsort hmem hfuel
      obtain ⟨f, rfl⟩ : ∃ f, fuel = f + 1 := ⟨fuel - 1, by simp at hfuel; omega⟩
      have hd1lt : d1 < d0 := (List.pairwise_cons.mp hsort).1 d1 (List.mem_cons_self d1 rest2)
      unfold consecutiveRun
      rw [if_pos ((hmem d0 le_rfl).mpr (List.mem_cons_self d0 (d1 :: rest2)))]
      unfold streakWalk
      by_cases hd : d0 - d1 = 1
      · rw [if_pos hd]
        have hd1eq : d0 - 1 = d1 := by omega
        rw [hd1eq]
        have hrec := ih d1 dates f (List.pairwise_cons.mp hsort).2 ?memcond ?fuelcond
        · rw [hrec]
        · intro x hx
          constructor
          · intro hxd
            have h2 := (hmem x (le_trans hx (le_of_lt hd1lt))).mp hxd
            rcases List.mem_cons.mp h2 with he | hin
            · exfalso; omega
            · exact hin
          · intro hxr
            exact (hmem x (le_trans hx (le_of_lt hd1lt))).mpr (List.mem_cons_of_mem d0 hxr)
        · simp only [List.length_cons] at hfuel ⊢
          omega
      · rw [if_neg hd]
        have hnm : d0 - 1 ∉ dates := by
          intro hm
          have h2 := (hmem (d0 - 1) (by omega)).mp hm
          rcases List.mem_cons.mp h2 with he | h2
          · omega
          rcases List.mem_cons.mp h2 with he | h2
          · omega
          · have hlt := (List.pairwise_cons.mp (List.pairwise_cons.mp hsort).2).1 _ h2
            omega
        rw [consecutiveRun_of_not_mem dates (d0 - 1) f hnm]

theorem max?_eq_some_of (l : List ℤ) (d : ℤ) (hmem : d ∈ l) (hbound : ∀ x ∈ l, x ≤ d) :
    l.max? = some d := by
  have anti : Std.Antisymm (fun x1 x2 : ℤ => x1 ≤ x2) :=
    ⟨@fun _ _ h1 h2 => le_antisymm h1 h2⟩
  exact (@List.max?_eq_some_iff ℤ d _ _ anti (fun a => le_refl a)
    (fun a b => max_choice a b) (fun a b c => max_le_iff) l).mpr ⟨hmem, hbound⟩

theorem calculateStreak_eq_specStreak (history : List ℤ) (today : ℤ) :
    calculateStreak history today = specStreak history today := by
  cases history with
  | nil => rfl
  | cons h0 hist =>
      unfold calculateStreak specStreak
      rw [if_neg (by simp)]
      have hperm : ((jsSetDedup (h0 :: hist)).mergeSort (fun a b => decide (b ≤ a))).Perm
          (jsSetDedup (h0 :: hist)) := List.mergeSort_perm _ _
      have humem : ∀ x, x ∈ (jsSetDedup (h0 :: hist)).mergeSort (fun a b => decide (b ≤ a)) ↔
          x ∈ h0 :: hist := fun x => (hperm.mem_iff).trans (jsSetDedup_mem _ x)
      have hnd : ((jsSetDedup (h0 :: hist)).mergeSort (fun a b => decide (b ≤ a))).Nodup :=
        (hperm.nodup_iff).mpr (jsSetDedup_nodup _)
      have hsorted : ((jsSetDedup (h0 :: hist)).mergeSort
          (fun a b => decide (b ≤ a))).Pairwise (fun a b => decide (b ≤ a) = true) :=
        List.sorted_mergeSort
          (by intro a b c hab hbc; simp only [decide_eq_true_eq] at *; omega)
          (by intro a b; simp [le_total]) _
      have hstrict : ((jsSetDedup (h0 :: hist)).mergeSort
          (fun a b => decide (b ≤ a))).Pairwise (fun a b => b < a) :=
        (hsorted.and hnd).imp (fun h => by
          have h1 := of_decide_eq_true h.1
          exact lt_of_le_of_ne h1 (fun he => h.2 he.symm))
      have hlen : ((jsSetDedup (h0 :: hist)).mergeSort
          (fun a b => decide (b ≤ a))).length ≤ (h0 :: hist).length := by
        rw [hperm.length_eq]
        exact jsSetDedup_length _
      cases hu2 : (jsSetDedup (h0 :: hist)).mergeSort (fun a b => decide (b ≤ a)) with
      | nil =>
          exfalso
          have hin : h0 ∈ (jsSetDedup (h0 :: hist)).mergeSort (fun a b => decide (b ≤ a)) :=
            (humem h0).mpr (List.mem_cons_self h0 hist)
          rw [hu2] at hin
          exact (List.not_mem_nil h0) hin
      | cons d0 rest =>
          rw [hu2] at humem hstrict hlen
          have hbound : ∀ x ∈ h0 :: hist, x ≤ d0 := by
            intro x hx
            rcases List.mem_cons.mp ((humem x).mpr hx) with he | hin
            · exact le_of_eq he
            · exact le_of_lt ((List.pairwise_cons.mp hstrict).1 x hin)
          have hmax : (h0 :: hist).max? = some d0 :=
            max?_eq_some_of _ d0 ((humem d0).mp (List.mem_cons_self d0 rest)) hbound
          rw [hmax]
          dsimp only
          by_cases hcond : d0 = today ∨ d0 = today - 1
          · rw [if_pos hcond, if_pos hcond]
            rw [streakWalk_eq_consecutiveRun rest d0 (h0 :: hist) (h0 :: hist).length
              hstrict (fun x _ => (humem x).symm) hlen]
          · rw [if_neg hcond, if_neg hcond]

/-- C4: the streak computed from an attempt history (attempt timestamps
abstracted to local calendar-day numbers) equals the number of consecutive
calendar days, deduplicated, with at least one attempt in the unbroken run
ending at the most recent attempt day, provided that day is today or
yesterday; otherwise the streak is 0. In particular attempts on three
consecutive days ending yesterday give streak 3. -/
theorem c4_streak (history : List ℤ) (today : ℤ) :
    calculateStreak history today = specStreak history today ∧
    calculateStreak [today - 1, today - 2, today - 3] today = 3 := by
  refine ⟨calculateStreak_eq_specStreak history today, ?_⟩
  rw [calculateStreak_eq_specStreak]
  unfold specStreak
  rw [max?_eq_some_of _ (today - 1) (by simp)
    (by
      intro x hx
      simp only [List.mem_cons, List.not_mem_nil, or_false] at hx
      rcases hx with h | h | h <;> omega)]
  dsimp only
  rw [if_pos (Or.inr rfl)]
  show consecutiveRun [today - 1, today - 2, today - 3] (today - 1) 3 = 3
  unfold consecutiveRun
  rw [if_pos (by simp)]
  unfold consecutiveRun
  rw [if_pos (by
    simp only [List.mem_cons, List.not_mem_nil, or_false]
    right; left; omega)]
  unfold consecutiveRun
  rw [if_pos (by
    simp only [List.mem_cons, List.not_mem_nil, or_false]
    right; right; omega)]
  rfl

end UpscApp
